import Mathlib

/-!
Shallow embedding of src/whisper.py (LexGlu/whisper-audio-transcriber).

Pure functions of the script are translated directly.  The effectful parts
(pydub export, the OpenAI transcription call, aiofiles writes, the
environment and the filesystem) are modelled by an environment record that
gives the outcome of each external operation, and asyncio.gather is
modelled operationally: tasks complete in an explicit completion order,
each completion stores its result in a slot keyed by the task's index, and
the results are read out in task-index order afterwards.

Audio is modelled at millisecond granularity: a pydub AudioSegment of
duration T milliseconds is a list of length T whose elements are that
segment's per-millisecond sample data.
-/

namespace Whisper

variable {α : Type} {ε : Type}

/-- CHUNK_DURATION_MS (src/whisper.py line 18): 10 minutes in milliseconds. -/
def CHUNK_DURATION_MS : Nat := 10 * 60 * 1000

/-- split_audio_into_chunks (src/whisper.py lines 65-70).  The pydub slice
audio[::CHUNK_DURATION_MS] yields audio[i : i + CHUNK_DURATION_MS] for
i in range(0, len(audio), CHUNK_DURATION_MS), i.e. successive take/drop
slices of CHUNK_DURATION_MS milliseconds; an empty audio yields no chunks. -/
def split_audio_into_chunks (audio : List α) : List (List α) :=
  if h : audio.isEmpty then []
  else
    audio.take CHUNK_DURATION_MS ::
      split_audio_into_chunks (audio.drop CHUNK_DURATION_MS)
termination_by audio.length
decreasing_by
  have hne : audio ≠ [] := by simpa [List.isEmpty_iff] using h
  have hpos : 0 < audio.length := List.length_pos.mpr hne
  simp only [List.length_drop, CHUNK_DURATION_MS]
  omega

/-- Ordinal indexes assigned to the chunks by run_transcription
(src/whisper.py line 175): enumerate(chunks) with i + 1. -/
def chunk_ordinals (chunks : List (List α)) : List Nat :=
  chunks.enum.map fun p => p.1 + 1

/-- Python str.strip character class: space, tab, newline, carriage return,
vertical tab, form feed. -/
def py_is_space (c : Char) : Bool :=
  c = ' ' || c = '\t' || c = '\n' || c = '\r' || c = '\x0b' || c = '\x0c'

/-- Python str.strip: remove leading and trailing whitespace. -/
def python_strip (s : String) : String :=
  String.mk (((s.data.dropWhile py_is_space).reverse.dropWhile py_is_space).reverse)

/-- Python str.lower, modelled per character (exact on ASCII input, which is
all the claims exercise; Char.toLower lowercases the ASCII range). -/
def py_lower (s : String) : String :=
  String.mk (s.data.map Char.toLower)

/-- parse_arguments (src/whisper.py lines 21-41).  argv includes the program
name at index 0.  A missing path argument prints usage and exits nonzero,
modelled as an error; a present language argument is stripped and lowered
and must be nonempty of length two, else ValueError is raised. -/
def parse_arguments (argv : List String) : Except String (String × String) :=
  if argv.length < 2 then
    Except.error "Usage: python whisper.py <audio_file_path> [optional_language_code]"
  else
    let audio_file_path := argv.getD 1 ""
    if 3 ≤ argv.length then
      let user_lang := py_lower (python_strip (argv.getD 2 ""))
      if user_lang ≠ "" ∧ user_lang.length = 2 then
        Except.ok (audio_file_path, user_lang)
      else
        Except.error
          ("Invalid language code " ++ user_lang ++ ". Should be an ISO 3166-1 alpha-2 code.")
    else
      Except.ok (audio_file_path, "en")

/-- One element of TranscriptionVerbose.segments.  The start and end offsets
are modelled at whole-second granularity (strftime renders whole seconds). -/
structure TranscriptionSegment where
  start : Nat
  «end» : Nat
  text : String
deriving DecidableEq, Repr, Inhabited

/-- The verbose_json response of the transcription call: full text plus the
ordered list of segments. -/
structure TranscriptionVerbose where
  text : String
  segments : List TranscriptionSegment
deriving DecidableEq, Repr, Inhabited

/-- Zero padding of a number to two digits, as strftime does for each of
%H, %M and %S. -/
def two_digits (n : Nat) : String :=
  if n < 10 then "0" ++ toString n else toString n

/-- strftime("%H:%M:%S") applied to a time of day given in seconds. -/
def strftime_HMS (t : Nat) : String :=
  two_digits (t / 3600 % 24) ++ ":" ++ two_digits (t / 60 % 60) ++ ":" ++ two_digits (t % 60)

/-- datetime.fromtimestamp interprets an epoch timestamp in the LOCAL
timezone: for a fixed-offset timezone tz seconds east of UTC, the rendered
time of day is (ts + tz) mod 86400 seconds (Int.emod agrees with Python
for the positive modulus). -/
def fromtimestamp_time_of_day (tz : Int) (ts : Nat) : Nat :=
  (((ts : Int) + tz) % 86400).toNat

/-- format_segment_text (src/whisper.py lines 115-121).  The local timezone
offset tz is an implicit environment input via datetime.fromtimestamp. -/
def format_segment_text (tz : Int) (segment : TranscriptionSegment) : String :=
  let start_time := strftime_HMS (fromtimestamp_time_of_day tz segment.start)
  let end_time := strftime_HMS (fromtimestamp_time_of_day tz segment.«end»)
  start_time ++ " - " ++ end_time ++ ":\n" ++ segment.text ++ "\n\n"

/-- Outcomes of every external operation of the run: the OPENAI_API_KEY
environment variable, os.path.exists on the input file, pydub export per
chunk file path, the OpenAI transcription call per chunk file path and
language, and the aiofiles write per output file path. -/
structure Env where
  api_key : Option String
  file_exists : Bool
  export_result : String → Except String Unit
  transcribe_result : String → String → Except String TranscriptionVerbose
  save_result : String → Except String Unit

/-- Chunk file naming in process_chunk (src/whisper.py line 136). -/
def chunk_file_path (audio_name : String) (chunk_index : Nat) (audio_format : String) : String :=
  audio_name ++ "_" ++ toString chunk_index ++ "." ++ audio_format

/-- process_chunk (src/whisper.py lines 124-144): export the chunk to its
deterministically named file, then transcribe it.  Either failure
propagates unchanged as the failure of this task; the chunk index enters
only the file name. -/
def process_chunk (env : Env) (_audio_chunk : List α) (audio_format : String)
    (chunk_index : Nat) (audio_name : String) (language : String) :
    Except String TranscriptionVerbose :=
  match env.export_result (chunk_file_path audio_name chunk_index audio_format) with
  | Except.error e => Except.error e
  | Except.ok _ =>
      env.transcribe_result (chunk_file_path audio_name chunk_index audio_format) language

/-- One step of asyncio.gather per completed task, in completion order:
task i stores its result in the slot keyed by i; the first failure
observed fails the whole gather. -/
def gather_fill (tasks : List (Except ε α)) :
    List Nat → List (Nat × α) → Except ε (List (Nat × α))
  | [], slots => Except.ok slots
  | i :: rest, slots =>
    match tasks[i]? with
    | some (Except.error e) => Except.error e
    | some (Except.ok a) => gather_fill tasks rest (slots ++ [(i, a)])
    | none => gather_fill tasks rest slots

/-- asyncio.gather (src/whisper.py line 179): tasks complete in the given
completion order filling one slot each; afterwards the results are read
out indexed by task position, independent of completion order. -/
def gather [Inhabited α] (tasks : List (Except ε α)) (order : List Nat) :
    Except ε (List α) :=
  match gather_fill tasks order [] with
  | Except.error e => Except.error e
  | Except.ok slots =>
      Except.ok ((List.range tasks.length).map fun i => (slots.lookup i).getD default)

/-- Combine step (src/whisper.py lines 181-186): texts of the per-chunk
results joined by one space and stripped. -/
def combined_text_of (transcriptions_data : List TranscriptionVerbose) : String :=
  python_strip (String.intercalate " " (transcriptions_data.map TranscriptionVerbose.text))

/-- Combine step (src/whisper.py lines 181-184): segments of the per-chunk
results flattened in order. -/
def all_segments (transcriptions_data : List TranscriptionVerbose) : List TranscriptionSegment :=
  (transcriptions_data.map TranscriptionVerbose.segments).flatten

/-- Transcript output file name (src/whisper.py line 189). -/
def transcription_file_path (audio_name : String) : String :=
  audio_name ++ "_transcription.txt"

/-- Segments output file name (src/whisper.py line 196). -/
def segments_file_path (audio_name : String) : String :=
  audio_name ++ "_segments.txt"

/-- Formatted segment listing (src/whisper.py line 198).  The genexp filter
`if s` is vacuous: the segment objects are always truthy. -/
def formatted_segments (tz : Int) (segments : List TranscriptionSegment) : String :=
  String.join (segments.map (format_segment_text tz))

/-- Observable outcome of a run: the output files written (path, content)
in write order, and the exception that aborted the run, if any. -/
structure RunOutcome where
  written : List (String × String)
  error : Option String
deriving DecidableEq, Repr

/-- Segments write (src/whisper.py lines 195-201), reached only if no
earlier exception: written only when the segments list is nonempty; a
save_file failure raises, keeping the files already written. -/
def write_segments_step (env : Env) (tz : Int) (audio_name : String)
    (written : List (String × String)) (segments : List TranscriptionSegment) : RunOutcome :=
  if segments ≠ [] then
    match env.save_result (segments_file_path audio_name) with
    | Except.error e => ⟨written, some e⟩
    | Except.ok _ =>
        ⟨written ++ [(segments_file_path audio_name, formatted_segments tz segments)], none⟩
  else ⟨written, none⟩

/-- Output phase of run_transcription (src/whisper.py lines 188-201): the
transcript write, if any, strictly precedes the segments write, and an
exception from save_file aborts the rest of the run. -/
def write_outputs (env : Env) (tz : Int) (audio_name : String)
    (combined_text : String) (segments : List TranscriptionSegment) : RunOutcome :=
  if combined_text ≠ "" then
    match env.save_result (transcription_file_path audio_name) with
    | Except.error e => ⟨[], some e⟩
    | Except.ok _ =>
        write_segments_step env tz audio_name
          [(transcription_file_path audio_name, combined_text)] segments
  else write_segments_step env tz audio_name [] segments

/-- run_transcription after chunking (src/whisper.py lines 169-203): one
task per chunk with ordinal i+1, gathered under the given completion
order, then combined and written out. -/
def run_transcription_from_chunks (env : Env) (tz : Int) (chunks : List (List α))
    (order : List Nat) (audio_name audio_format language : String) : RunOutcome :=
  match gather (chunks.enum.map fun p =>
      process_chunk env p.2 audio_format (p.1 + 1) audio_name language) order with
  | Except.error e => ⟨[], some e⟩
  | Except.ok transcriptions_data =>
      write_outputs env tz audio_name (combined_text_of transcriptions_data)
        (all_segments transcriptions_data)

/-- run_transcription (src/whisper.py lines 147-203).  The api key check of
get_openai_client and the os.path.exists check precede all other work; the
stem and format derivation by os.path.splitext (lines 161-162) is not
itself modelled: audio_name and audio_format are taken as inputs. -/
def run_transcription (env : Env) (tz : Int) (audio : List α) (order : List Nat)
    (audio_name audio_format language : String) : RunOutcome :=
  match env.api_key with
  | none => ⟨[], some "OPENAI_API_KEY not found in environment variables."⟩
  | some _ =>
      if env.file_exists then
        run_transcription_from_chunks env tz (split_audio_into_chunks audio)
          order audio_name audio_format language
      else ⟨[], some "Audio file not found"⟩

/-- main (src/whisper.py lines 206-212): parse the arguments, then and only
then run the pipeline.  The pipeline itself is abstracted as a function of
the parsed path and language, so that a parse failure provably performs no
work at all. -/
def main_run (argv : List String) (run : String → String → RunOutcome) :
    Except String RunOutcome :=
  match parse_arguments argv with
  | Except.error e => Except.error e
  | Except.ok pl => Except.ok (run pl.1 pl.2)

/-- The per-chunk transcription results in chunk ordinal order, as a
function of the service behaviour res on each chunk file path. -/
def chunk_results (res : String → String → TranscriptionVerbose)
    (chunks : List (List α)) (audio_name audio_format language : String) :
    List TranscriptionVerbose :=
  chunks.enum.map fun p => res (chunk_file_path audio_name (p.1 + 1) audio_format) language

/-- Environment in which every external operation succeeds and every
transcription returns text "a" with no segments. -/
def env_ok : Env :=
  ⟨some "sk-test", true, fun _ => Except.ok (),
    fun _ _ => Except.ok ⟨"a", []⟩, fun _ => Except.ok ()⟩

/-- Service behaviour returning texts "a", "b", "c" for the chunk files of
ordinals 1, 2, 3 of an input with stem "audio" and format "mp3". -/
def res_abc : String → String → TranscriptionVerbose := fun p _ =>
  if p = "audio_1.mp3" then ⟨"a", []⟩
  else if p = "audio_2.mp3" then ⟨"b", []⟩
  else ⟨"c", []⟩

/-- Environment realising res_abc with all other operations succeeding. -/
def env_abc : Env :=
  ⟨some "sk-test", true, fun _ => Except.ok (),
    fun p l => Except.ok (res_abc p l), fun _ => Except.ok ()⟩

/-- Environment whose transcription call always fails, as on an auth or
network error of the remote service. -/
def env_tfail : Env :=
  ⟨some "sk-test", true, fun _ => Except.ok (),
    fun _ _ => Except.error "APIConnectionError", fun _ => Except.ok ()⟩

/-- Environment in which everything succeeds except the write of the file
audio_transcription.txt, and every transcription has text "hello" and one
segment. -/
def env_wfail : Env :=
  ⟨some "sk-test", true, fun _ => Except.ok (),
    fun _ _ => Except.ok ⟨"hello", [⟨0, 2, " hello"⟩]⟩,
    fun p => if p = "audio_transcription.txt" then Except.error "disk full" else Except.ok ()⟩

/-- Service behaviour of env_wfail, env_hello and env_sfail: every chunk
transcribes to text "hello" with one segment. -/
def res_hello : String → String → TranscriptionVerbose :=
  fun _ _ => ⟨"hello", [⟨0, 2, " hello"⟩]⟩

/-- Same service behaviour as env_wfail but with every write succeeding. -/
def env_hello : Env :=
  ⟨some "sk-test", true, fun _ => Except.ok (),
    fun p l => Except.ok (res_hello p l), fun _ => Except.ok ()⟩

/-- Same service behaviour as env_wfail but failing only the write of the
file audio_segments.txt. -/
def env_sfail : Env :=
  ⟨some "sk-test", true, fun _ => Except.ok (),
    fun p l => Except.ok (res_hello p l),
    fun p => if p = "audio_segments.txt" then Except.error "quota exceeded" else Except.ok ()⟩

/-- Service behaviour of env_ok: every chunk transcribes to text "a" with
no segments. -/
def res_a : String → String → TranscriptionVerbose := fun _ _ => ⟨"a", []⟩

/-- Decidable equality for Except, used to evaluate concrete task
outcomes. -/
instance {ε' α' : Type} [DecidableEq ε'] [DecidableEq α'] : DecidableEq (Except ε' α') :=
  fun a b =>
    match a, b with
    | Except.error e1, Except.error e2 =>
        if h : e1 = e2 then isTrue (by rw [h]) else isFalse (by simp [h])
    | Except.ok a1, Except.ok a2 =>
        if h : a1 = a2 then isTrue (by rw [h]) else isFalse (by simp [h])
    | Except.error _, Except.ok _ => isFalse (by simp)
    | Except.ok _, Except.error _ => isFalse (by simp)

end Whisper

namespace Whisper

theorem split_audio_nil : split_audio_into_chunks ([] : List α) = [] := by
  rw [split_audio_into_chunks]
  rfl

theorem split_join (audio : List α) :
    (split_audio_into_chunks audio).flatten = audio := by
  induction audio using split_audio_into_chunks.induct with
  | case1 audio h =>
      rw [split_audio_into_chunks]
      simp [h]
      exact List.isEmpty_iff.mp h
  | case2 audio h ih =>
      rw [split_audio_into_chunks]
      simp [h, ih]

theorem split_length (audio : List α) :
    (split_audio_into_chunks audio).length
      = (audio.length + CHUNK_DURATION_MS - 1) / CHUNK_DURATION_MS := by
  induction audio using split_audio_into_chunks.induct with
  | case1 audio h =>
      rw [split_audio_into_chunks]
      have h0 : audio.length = 0 := by simp [List.isEmpty_iff.mp h]
      simp only [h, dite_true, List.length_nil, h0, CHUNK_DURATION_MS]
  | case2 audio h ih =>
      rw [split_audio_into_chunks, dif_neg h]
      have hpos : 0 < audio.length := by
        have : audio ≠ [] := by simpa [List.isEmpty_iff] using h
        exact List.length_pos.mpr this
      simp only [List.length_cons, ih, List.length_drop]
      simp only [CHUNK_DURATION_MS] at *
      omega

theorem split_dropLast (audio : List α) :
    ∀ c ∈ (split_audio_into_chunks audio).dropLast, c.length = CHUNK_DURATION_MS := by
  induction audio using split_audio_into_chunks.induct with
  | case1 audio h =>
      rw [split_audio_into_chunks]
      simp [h]
  | case2 audio h ih =>
      rw [split_audio_into_chunks, dif_neg h]
      intro c hc
      rcases heq : split_audio_into_chunks (audio.drop CHUNK_DURATION_MS) with _ | ⟨d, rest⟩
      · simp [heq] at hc
      · rw [heq] at hc
        rw [List.dropLast_cons_of_ne_nil (by simp), List.mem_cons] at hc
        rcases hc with hc | hc
        · subst hc
          have hlong : CHUNK_DURATION_MS ≤ audio.length := by
            by_contra hlt
            have : audio.drop CHUNK_DURATION_MS = [] := by
              apply List.drop_eq_nil_of_le
              omega
            rw [this, split_audio_nil] at heq
            exact List.noConfusion heq
          simp [List.length_take, Nat.min_eq_left hlong]
        · exact ih c (heq ▸ hc)

theorem split_getD (audio : List α) :
    ∀ i, i < (split_audio_into_chunks audio).length →
      (split_audio_into_chunks audio).getD i []
        = (audio.drop (CHUNK_DURATION_MS * i)).take CHUNK_DURATION_MS := by
  induction audio using split_audio_into_chunks.induct with
  | case1 audio h =>
      rw [split_audio_into_chunks]
      simp [h]
  | case2 audio h ih =>
      rw [split_audio_into_chunks, dif_neg h]
      intro i hi
      match i with
      | 0 => simp
      | j + 1 =>
          simp only [List.getD_cons_succ]
          rw [ih j (by simpa using hi)]
          rw [List.drop_drop, Nat.mul_succ, Nat.add_comm]

theorem getLastD_eq_getD {β : Type} (l : List β) (d : β) (h : 0 < l.length) :
    l.getLastD d = l.getD (l.length - 1) d := by
  rcases l with _ | ⟨a, t⟩
  · simp at h
  · rw [List.getLastD_eq_getLast?, List.getLast?_eq_getElem?,
      List.getElem?_eq_getElem (by simp)]
    simp [List.getD_eq_getElem?_getD]

theorem split_getLastD (audio : List α) :
    ((split_audio_into_chunks audio).getLastD []).length
      = audio.length
          - CHUNK_DURATION_MS * ((split_audio_into_chunks audio).length - 1) := by
  by_cases hnil : audio.isEmpty
  · have : audio = [] := List.isEmpty_iff.mp hnil
    subst this
    simp [split_audio_nil]
  · have hN : 0 < (split_audio_into_chunks audio).length := by
      rw [split_audio_into_chunks, dif_neg hnil]
      simp
    rw [getLastD_eq_getD _ _ hN, split_getD audio _ (by omega)]
    have hlen := split_length audio
    simp only [List.length_take, List.length_drop]
    simp only [CHUNK_DURATION_MS] at *
    omega

theorem split_ordinals (audio : List α) :
    chunk_ordinals (split_audio_into_chunks audio)
      = List.range' 1 (split_audio_into_chunks audio).length := by
  generalize split_audio_into_chunks audio = chunks
  have key : ∀ (n : Nat) (l : List (List α)),
      (l.enumFrom n).map (fun p => p.1 + 1) = List.range' (n + 1) l.length := by
    intro n l
    induction l generalizing n with
    | nil => simp
    | cons a t ih => simp [List.range'_succ, ih]
  simpa [chunk_ordinals, List.enum] using key 0 chunks

theorem split_ordinals_nodup (audio : List α) :
    (chunk_ordinals (split_audio_into_chunks audio)).Nodup := by
  rw [split_ordinals]
  exact List.nodup_range' _ _

theorem lookup_fill {β : Type} (rs : List β) (i : Nat) (a : β) (ha : rs[i]? = some a) :
    ∀ order : List Nat, i ∈ order →
      (order.filterMap fun j => rs[j]?.map fun v => (j, v)).lookup i = some a := by
  intro order
  induction order with
  | nil => simp
  | cons j rest ih =>
      intro hmem
      rw [List.filterMap_cons]
      cases hj : rs[j]? with
      | none =>
          rcases List.mem_cons.mp hmem with heq | hmem'
          · subst heq
            rw [hj] at ha
            cases ha
          · simpa [hj] using ih hmem'
      | some v =>
          simp only [Option.map_some']
          by_cases hij : i = j
          · subst hij
            rw [hj] at ha
            injection ha with hva
            simp [List.lookup, hva]
          · have hb : (i == j) = false := by simp [hij]
            simp only [List.lookup, hb]
            rcases List.mem_cons.mp hmem with heq | hmem'
            · exact absurd heq hij
            · exact ih hmem'

theorem gather_fill_all_ok {β : Type} (rs : List β) :
    ∀ (order : List Nat) (acc : List (Nat × β)),
      gather_fill (rs.map Except.ok : List (Except ε β)) order acc
        = Except.ok (acc ++ order.filterMap fun i => rs[i]?.map fun v => (i, v)) := by
  intro order
  induction order with
  | nil => simp [gather_fill]
  | cons i rest ih =>
      intro acc
      rw [gather_fill]
      cases hi : rs[i]? with
      | none => simp [List.getElem?_map, hi, ih, List.filterMap_cons]
      | some a => simp [List.getElem?_map, hi, ih, List.filterMap_cons]

theorem gather_all_ok {β : Type} [Inhabited β] (rs : List β) (order : List Nat)
    (hperm : order.Perm (List.range rs.length)) :
    gather (rs.map Except.ok : List (Except ε β)) order = Except.ok rs := by
  rw [gather, gather_fill_all_ok]
  simp only [List.nil_append, List.length_map]
  congr 1
  apply List.ext_getElem
  · simp
  · intro i h1 h2
    simp only [List.getElem_map, List.getElem_range]
    have hilt : i < rs.length := by simpa using h2
    have hmem : i ∈ order := hperm.mem_iff.mpr (List.mem_range.mpr hilt)
    rw [lookup_fill rs i rs[i] (by rw [List.getElem?_eq_getElem hilt]) order hmem]
    rfl

theorem gather_fill_error (tasks : List (Except ε α)) :
    ∀ order : List Nat, (∃ i ∈ order, ∃ e, tasks[i]? = some (Except.error e)) →
      ∀ acc, ∃ e', gather_fill tasks order acc = Except.error e' := by
  intro order
  induction order with
  | nil =>
      rintro ⟨i, hi, _⟩
      simp at hi
  | cons j rest ih =>
      rintro ⟨i, hi, e, he⟩ acc
      rw [gather_fill]
      cases hj : tasks[j]? with
      | none =>
          rcases List.mem_cons.mp hi with heq | h'
          · subst heq
            rw [hj] at he
            cases he
          · simpa [hj] using ih ⟨i, h', e, he⟩ acc
      | some x =>
          cases x with
          | error e0 => exact ⟨e0, by simp [hj]⟩
          | ok a =>
              rcases List.mem_cons.mp hi with heq | h'
              · subst heq
                rw [hj] at he
                cases he
              · simpa [hj] using ih ⟨i, h', e, he⟩ (acc ++ [(j, a)])

theorem gather_error [Inhabited α] (tasks : List (Except ε α)) (order : List Nat)
    (hperm : order.Perm (List.range tasks.length))
    (e : ε) (he : Except.error e ∈ tasks) :
    ∃ e', gather tasks order = Except.error e' := by
  obtain ⟨i, hget⟩ := List.mem_iff_getElem?.mp he
  have hilt : i < tasks.length := by
    by_contra hge
    rw [List.getElem?_eq_none (by omega)] at hget
    cases hget
  have hmem : i ∈ order := hperm.mem_iff.mpr (List.mem_range.mpr hilt)
  obtain ⟨e', hfill⟩ := gather_fill_error tasks order ⟨i, hmem, e, hget⟩ []
  refine ⟨e', ?_⟩
  rw [gather, hfill]

theorem process_chunk_ok (env : Env) (res : String → String → TranscriptionVerbose)
    (hexp : ∀ p, env.export_result p = Except.ok ())
    (htr : ∀ p l, env.transcribe_result p l = Except.ok (res p l))
    (c : List α) (fmt : String) (i : Nat) (name lang : String) :
    process_chunk env c fmt i name lang
      = Except.ok (res (chunk_file_path name i fmt) lang) := by
  simp [process_chunk, hexp, htr]

theorem tasks_eq_map_ok (env : Env) (res : String → String → TranscriptionVerbose)
    (hexp : ∀ p, env.export_result p = Except.ok ())
    (htr : ∀ p l, env.transcribe_result p l = Except.ok (res p l))
    (chunks : List (List α)) (name fmt lang : String) :
    (chunks.enum.map fun p => process_chunk env p.2 fmt (p.1 + 1) name lang)
      = (chunk_results res chunks name fmt lang).map Except.ok := by
  rw [chunk_results, List.map_map]
  congr 1
  funext p
  simp [Function.comp, process_chunk_ok env res hexp htr]

theorem run_from_chunks_ok (env : Env) (res : String → String → TranscriptionVerbose)
    (tz : Int) (chunks : List (List α)) (order : List Nat) (name fmt lang : String)
    (hexp : ∀ p, env.export_result p = Except.ok ())
    (htr : ∀ p l, env.transcribe_result p l = Except.ok (res p l))
    (hperm : order.Perm (List.range chunks.length)) :
    run_transcription_from_chunks env tz chunks order name fmt lang
      = write_outputs env tz name
          (combined_text_of (chunk_results res chunks name fmt lang))
          (all_segments (chunk_results res chunks name fmt lang)) := by
  rw [run_transcription_from_chunks, tasks_eq_map_ok env res hexp htr,
    gather_all_ok _ _ (by simpa [chunk_results] using hperm)]

theorem write_outputs_all_ok (env : Env) (tz : Int) (name : String)
    (combined : String) (segments : List TranscriptionSegment)
    (hsave : ∀ p, env.save_result p = Except.ok ()) :
    write_outputs env tz name combined segments
      = ⟨(if combined ≠ "" then [(transcription_file_path name, combined)] else [])
          ++ (if segments ≠ [] then
                [(segments_file_path name, formatted_segments tz segments)] else []),
          none⟩ := by
  by_cases h1 : combined ≠ "" <;> by_cases h2 : segments ≠ [] <;>
    simp [write_outputs, write_segments_step, hsave, h1, h2]

theorem gather_fill_nil (order : List Nat) (acc : List (Nat × α)) :
    gather_fill ([] : List (Except ε α)) order acc = Except.ok acc := by
  induction order with
  | nil => rw [gather_fill]
  | cons i rest ih => rw [gather_fill]; simpa using ih

theorem gather_nil [Inhabited α] (order : List Nat) :
    gather ([] : List (Except ε α)) order = Except.ok [] := by
  rw [gather, gather_fill_nil]
  simp

theorem tpath_ne_spath (name : String) :
    transcription_file_path name ≠ segments_file_path name := by
  intro hcontra
  have hl := congrArg String.length hcontra
  rw [transcription_file_path, segments_file_path,
    String.length_append, String.length_append] at hl
  have h1 : ("_transcription.txt" : String).length = 18 := by decide
  have h2 : ("_segments.txt" : String).length = 13 := by decide
  omega

theorem py_lower_length (s : String) : (py_lower s).length = s.length := by
  rcases s with ⟨l⟩
  show (String.mk (l.map Char.toLower)).length = (String.mk l).length
  rw [String.length_mk, String.length_mk, List.length_map]

/-- C1: for decoded audio of positive duration T (milliseconds) and the
fixed chunk duration D = CHUNK_DURATION_MS, the chunker returns exactly
ceil(T / D) chunks; every chunk except possibly the last has duration D;
the last chunk has duration T - D * (N - 1); the i-th chunk is exactly the
slice of the audio starting at D * i, so the chunks are in increasing time
order and concatenate to the original audio with no gap or overlap; and
the ordinals assigned downstream are exactly 1..N with no repeats. -/
theorem chunker_spec (audio : List Nat) (h : 0 < audio.length) :
    (split_audio_into_chunks audio).length
        = (audio.length + CHUNK_DURATION_MS - 1) / CHUNK_DURATION_MS
    ∧ (split_audio_into_chunks audio).flatten = audio
    ∧ (∀ c ∈ (split_audio_into_chunks audio).dropLast, c.length = CHUNK_DURATION_MS)
    ∧ ((split_audio_into_chunks audio).getLastD []).length
        = audio.length - CHUNK_DURATION_MS * ((split_audio_into_chunks audio).length - 1)
    ∧ (∀ i, i < (split_audio_into_chunks audio).length →
        (split_audio_into_chunks audio).getD i []
          = (audio.drop (CHUNK_DURATION_MS * i)).take CHUNK_DURATION_MS)
    ∧ chunk_ordinals (split_audio_into_chunks audio)
        = List.range' 1 (split_audio_into_chunks audio).length
    ∧ (chunk_ordinals (split_audio_into_chunks audio)).Nodup :=
  ⟨split_length audio, split_join audio, split_dropLast audio, split_getLastD audio,
    split_getD audio, split_ordinals audio, split_ordinals_nodup audio⟩

/-- Witness for chunker_spec at the concrete one-millisecond audio [7]. -/
theorem chunker_spec_witness :
    0 < ([7] : List Nat).length
    ∧ ((split_audio_into_chunks ([7] : List Nat)).length
          = (([7] : List Nat).length + CHUNK_DURATION_MS - 1) / CHUNK_DURATION_MS
      ∧ (split_audio_into_chunks ([7] : List Nat)).flatten = [7]
      ∧ (∀ c ∈ (split_audio_into_chunks ([7] : List Nat)).dropLast,
            c.length = CHUNK_DURATION_MS)
      ∧ ((split_audio_into_chunks ([7] : List Nat)).getLastD []).length
          = ([7] : List Nat).length
              - CHUNK_DURATION_MS * ((split_audio_into_chunks ([7] : List Nat)).length - 1)
      ∧ (∀ i, i < (split_audio_into_chunks ([7] : List Nat)).length →
          (split_audio_into_chunks ([7] : List Nat)).getD i []
            = (([7] : List Nat).drop (CHUNK_DURATION_MS * i)).take CHUNK_DURATION_MS)
      ∧ chunk_ordinals (split_audio_into_chunks ([7] : List Nat))
          = List.range' 1 (split_audio_into_chunks ([7] : List Nat)).length
      ∧ (chunk_ordinals (split_audio_into_chunks ([7] : List Nat))).Nodup) :=
  ⟨by decide, chunker_spec [7] (by decide)⟩

/-- C2: the results of gather are indexed by original task position for
every completion order that is a permutation of the task indices; and for
an environment in which every per-chunk task succeeds, the whole observable
run outcome (files written, in order, with their contents) is identical
under any two completion orders, so Transcript and SegmentListing order
match chunk ordinal order, not completion order. -/
theorem orchestrator_order_independent
    (results : List TranscriptionVerbose) (order : List Nat)
    (env : Env) (res : String → String → TranscriptionVerbose) (tz : Int)
    (chunks : List (List Nat)) (order1 order2 : List Nat) (name fmt lang : String)
    (hperm : order.Perm (List.range results.length))
    (hexp : ∀ p, env.export_result p = Except.ok ())
    (htr : ∀ p l, env.transcribe_result p l = Except.ok (res p l))
    (hperm1 : order1.Perm (List.range chunks.length))
    (hperm2 : order2.Perm (List.range chunks.length)) :
    gather (results.map Except.ok : List (Except String TranscriptionVerbose)) order
        = Except.ok results
    ∧ run_transcription_from_chunks env tz chunks order1 name fmt lang
        = run_transcription_from_chunks env tz chunks order2 name fmt lang := by
  refine ⟨gather_all_ok results order hperm, ?_⟩
  rw [run_from_chunks_ok env res tz chunks order1 name fmt lang hexp htr hperm1,
    run_from_chunks_ok env res tz chunks order2 name fmt lang hexp htr hperm2]

/-- Witness for orchestrator_order_independent: two results gathered under
the reversed completion order, and a two-chunk run under the reversed and
the natural completion orders. -/
theorem orchestrator_order_independent_witness :
    gather ([⟨"a", []⟩, ⟨"b", []⟩].map Except.ok
        : List (Except String TranscriptionVerbose)) [1, 0]
      = Except.ok [⟨"a", []⟩, ⟨"b", []⟩]
    ∧ run_transcription_from_chunks env_abc 0 ([[0], [1]] : List (List Nat))
        [1, 0] "audio" "mp3" "en"
      = run_transcription_from_chunks env_abc 0 ([[0], [1]] : List (List Nat))
        [0, 1] "audio" "mp3" "en" :=
  orchestrator_order_independent [⟨"a", []⟩, ⟨"b", []⟩] [1, 0] env_abc res_abc 0
    [[0], [1]] [1, 0] [0, 1] "audio" "mp3" "en"
    (by decide) (fun _ => rfl) (fun _ _ => rfl) (by decide) (by decide)

/-- C3: format_segment_text renders the segment offsets through
datetime.fromtimestamp, which applies the local timezone; the spec's
round-trip property (start=65, end=125 renders as 00:01:05 - 00:02:05)
holds exactly in UTC and fails in any other fixed-offset timezone, here
UTC+01:00, where the same segment renders as 01:01:05 - 01:02:05. -/
theorem format_segment_tz_dependent :
    format_segment_text 0 ⟨65, 125, " hello"⟩ = "00:01:05 - 00:02:05:\n hello\n\n"
    ∧ format_segment_text 3600 ⟨65, 125, " hello"⟩ = "01:01:05 - 01:02:05:\n hello\n\n"
    ∧ format_segment_text 3600 ⟨65, 125, " hello"⟩ ≠ "00:01:05 - 00:02:05:\n hello\n\n" := by
  refine ⟨by decide, by decide, by decide⟩

/-- C4: if any chunk's export or transcription task fails, the gather join
fails, the run reports an error, and no output file at all is written. -/
theorem failure_aborts_run (env : Env) (tz : Int) (chunks : List (List Nat))
    (order : List Nat) (name fmt lang : String) (e : String)
    (hperm : order.Perm (List.range chunks.length))
    (hfail : Except.error e ∈
      chunks.enum.map fun p => process_chunk env p.2 fmt (p.1 + 1) name lang) :
    (run_transcription_from_chunks env tz chunks order name fmt lang).written = []
    ∧ (run_transcription_from_chunks env tz chunks order name fmt lang).error.isSome := by
  obtain ⟨e', hg⟩ := gather_error _ order (by simpa using hperm) e hfail
  rw [run_transcription_from_chunks, hg]
  exact ⟨rfl, rfl⟩

/-- Witness for failure_aborts_run: a single-chunk run whose transcription
call fails writes nothing and reports an error. -/
theorem failure_aborts_run_witness :
    (run_transcription_from_chunks env_tfail 0 ([[0]] : List (List Nat))
        [0] "audio" "mp3" "en").written = []
    ∧ (run_transcription_from_chunks env_tfail 0 ([[0]] : List (List Nat))
        [0] "audio" "mp3" "en").error.isSome :=
  failure_aborts_run env_tfail 0 [[0]] [0] "audio" "mp3" "en" "APIConnectionError"
    (by decide) (List.mem_singleton.mpr rfl)

/-- C5: under an all-success environment the run writes the transcript file
first, and its content is exactly the per-chunk texts in chunk ordinal
order joined with a single separating space and stripped of leading and
trailing whitespace. -/
theorem transcript_is_ordered_join (env : Env) (res : String → String → TranscriptionVerbose)
    (tz : Int) (chunks : List (List Nat)) (order : List Nat) (name fmt lang : String)
    (hexp : ∀ p, env.export_result p = Except.ok ())
    (htr : ∀ p l, env.transcribe_result p l = Except.ok (res p l))
    (hsave : ∀ p, env.save_result p = Except.ok ())
    (hperm : order.Perm (List.range chunks.length))
    (hne : python_strip (String.intercalate " "
        ((chunk_results res chunks name fmt lang).map TranscriptionVerbose.text)) ≠ "") :
    ∃ rest, (run_transcription_from_chunks env tz chunks order name fmt lang).written
        = (transcription_file_path name,
            python_strip (String.intercalate " "
              ((chunk_results res chunks name fmt lang).map TranscriptionVerbose.text)))
          :: rest := by
  have hne' : combined_text_of (chunk_results res chunks name fmt lang) ≠ "" := hne
  rw [run_from_chunks_ok env res tz chunks order name fmt lang hexp htr hperm,
    write_outputs_all_ok env tz name _ _ hsave, if_pos hne']
  exact ⟨_, rfl⟩

/-- Witness for transcript_is_ordered_join: three chunks transcribed as
"a", "b", "c" under an out-of-order completion yield the transcript
"a b c". -/
theorem transcript_is_ordered_join_witness :
    python_strip (String.intercalate " "
        ((chunk_results res_abc ([[0], [1], [2]] : List (List Nat)) "audio" "mp3" "en").map
          TranscriptionVerbose.text)) = "a b c"
    ∧ ∃ rest, (run_transcription_from_chunks env_abc 0 ([[0], [1], [2]] : List (List Nat))
        [2, 0, 1] "audio" "mp3" "en").written
        = (transcription_file_path "audio", "a b c") :: rest := by
  have habc : python_strip (String.intercalate " "
      ((chunk_results res_abc ([[0], [1], [2]] : List (List Nat)) "audio" "mp3" "en").map
        TranscriptionVerbose.text)) = "a b c" := by decide
  refine ⟨habc, ?_⟩
  obtain ⟨rest, hr⟩ := transcript_is_ordered_join env_abc res_abc 0 [[0], [1], [2]]
    [2, 0, 1] "audio" "mp3" "en" (fun _ => rfl) (fun _ _ => rfl) (fun _ => rfl)
    (by decide) (by rw [habc]; decide)
  rw [habc] at hr
  exact ⟨rest, hr⟩

/-- C6: under an all-success environment the transcript file is written if
and only if the combined text is nonempty, and the segments file is
written if and only if there is at least one segment; a zero-duration
input yields no chunks and a run that writes neither output file. -/
theorem output_write_conditions (env : Env) (res : String → String → TranscriptionVerbose)
    (tz : Int) (chunks : List (List Nat)) (order : List Nat) (name fmt lang : String)
    (hexp : ∀ p, env.export_result p = Except.ok ())
    (htr : ∀ p l, env.transcribe_result p l = Except.ok (res p l))
    (hsave : ∀ p, env.save_result p = Except.ok ())
    (hperm : order.Perm (List.range chunks.length))
    (hkey : env.api_key.isSome) (hfile : env.file_exists = true) :
    ((∃ c, (transcription_file_path name, c)
          ∈ (run_transcription_from_chunks env tz chunks order name fmt lang).written)
        ↔ combined_text_of (chunk_results res chunks name fmt lang) ≠ "")
    ∧ ((∃ c, (segments_file_path name, c)
          ∈ (run_transcription_from_chunks env tz chunks order name fmt lang).written)
        ↔ all_segments (chunk_results res chunks name fmt lang) ≠ [])
    ∧ split_audio_into_chunks ([] : List Nat) = []
    ∧ run_transcription env tz ([] : List Nat) order name fmt lang = ⟨[], none⟩ := by
  rw [run_from_chunks_ok env res tz chunks order name fmt lang hexp htr hperm,
    write_outputs_all_ok env tz name _ _ hsave]
  refine ⟨?_, ?_, split_audio_nil, ?_⟩
  · by_cases h1 : combined_text_of (chunk_results res chunks name fmt lang) ≠ ""
    · refine iff_of_true ⟨combined_text_of (chunk_results res chunks name fmt lang), ?_⟩ h1
      rw [if_pos h1]
      exact List.mem_append_left _ (List.mem_singleton.mpr rfl)
    · refine iff_of_false ?_ h1
      rintro ⟨c, hc⟩
      rw [if_neg h1] at hc
      by_cases h2 : all_segments (chunk_results res chunks name fmt lang) ≠ []
      · rw [if_pos h2] at hc
        have hm : (transcription_file_path name, c)
            ∈ ([] : List (String × String))
              ++ [(segments_file_path name,
                    formatted_segments tz
                      (all_segments (chunk_results res chunks name fmt lang)))] := hc
        rw [List.nil_append, List.mem_singleton] at hm
        exact tpath_ne_spath name (congrArg Prod.fst hm)
      · rw [if_neg h2] at hc
        have hm : (transcription_file_path name, c)
            ∈ ([] : List (String × String)) ++ [] := hc
        simp at hm
  · by_cases h2 : all_segments (chunk_results res chunks name fmt lang) ≠ []
    · refine iff_of_true
        ⟨formatted_segments tz (all_segments (chunk_results res chunks name fmt lang)), ?_⟩ h2
      rw [if_pos h2]
      exact List.mem_append_right _ (List.mem_singleton.mpr rfl)
    · refine iff_of_false ?_ h2
      rintro ⟨c, hc⟩
      rw [if_neg h2] at hc
      by_cases h1 : combined_text_of (chunk_results res chunks name fmt lang) ≠ ""
      · rw [if_pos h1] at hc
        have hm : (segments_file_path name, c)
            ∈ [(transcription_file_path name,
                  combined_text_of (chunk_results res chunks name fmt lang))]
              ++ ([] : List (String × String)) := hc
        rw [List.append_nil, List.mem_singleton] at hm
        exact tpath_ne_spath name (congrArg Prod.fst hm).symm
      · rw [if_neg h1] at hc
        have hm : (segments_file_path name, c)
            ∈ ([] : List (String × String)) ++ [] := hc
        simp at hm
  · obtain ⟨k, hk⟩ := Option.isSome_iff_exists.mp hkey
    simp only [run_transcription, hk]
    rw [if_pos hfile, split_audio_nil]
    simp only [run_transcription_from_chunks]
    rw [show (([] : List (List Nat)).enum.map fun p =>
        process_chunk env p.2 fmt (p.1 + 1) name lang) = [] from rfl,
      gather_nil]
    show write_outputs env tz name (combined_text_of []) (all_segments []) = ⟨[], none⟩
    rw [show combined_text_of [] = "" from rfl,
      show all_segments ([] : List TranscriptionVerbose) = [] from rfl]
    simp [write_outputs, write_segments_step]

/-- Witness for output_write_conditions: one chunk with text "a" and no
segments writes the transcript file and skips the segments file; the empty
audio run writes nothing. -/
theorem output_write_conditions_witness :
    ((∃ c, (transcription_file_path "audio", c)
          ∈ (run_transcription_from_chunks env_ok 0 ([[0]] : List (List Nat))
              [0] "audio" "mp3" "en").written)
        ↔ combined_text_of (chunk_results res_a ([[0]] : List (List Nat)) "audio" "mp3" "en") ≠ "")
    ∧ ((∃ c, (segments_file_path "audio", c)
          ∈ (run_transcription_from_chunks env_ok 0 ([[0]] : List (List Nat))
              [0] "audio" "mp3" "en").written)
        ↔ all_segments (chunk_results res_a ([[0]] : List (List Nat)) "audio" "mp3" "en") ≠ [])
    ∧ split_audio_into_chunks ([] : List Nat) = []
    ∧ run_transcription env_ok 0 ([] : List Nat) [0] "audio" "mp3" "en" = ⟨[], none⟩ :=
  output_write_conditions env_ok res_a 0 [[0]] [0] "audio" "mp3" "en"
    (fun _ => rfl) (fun _ _ => rfl) (fun _ => rfl) (by decide) (by decide) (by decide)

/-- C7 counterexample: the same service behaviour under two environments
differing only in write outcomes.  With every write succeeding both output
files are written; failing only the transcript write makes the run abort
with that error before the segments write, so the segments file is not
written: the transcript write failure does prevent the sibling write. -/
theorem output_writes_not_independent_cex :
    run_transcription_from_chunks env_hello 0 ([[0]] : List (List Nat)) [0] "audio" "mp3" "en"
      = ⟨[("audio_transcription.txt", "hello"),
          ("audio_segments.txt", "00:00:00 - 00:00:02:\n hello\n\n")], none⟩
    ∧ run_transcription_from_chunks env_wfail 0 ([[0]] : List (List Nat)) [0] "audio" "mp3" "en"
      = ⟨[], some "disk full"⟩ := by
  exact ⟨by decide, by decide⟩

/-- C7 amended: the two output writes are sequential, not independent.  If
the transcript write fails while the combined text is nonempty, the run
aborts with that error and no file at all is written, in particular not
the segments file; if the transcript write succeeds and the segments write
fails, the transcript file stays written and the run reports the segments
error. -/
theorem output_writes_sequential
    (env1 env2 : Env) (res : String → String → TranscriptionVerbose) (tz : Int)
    (chunks : List (List Nat)) (order : List Nat) (name fmt lang : String)
    (e1 e2 : String)
    (hexp1 : ∀ p, env1.export_result p = Except.ok ())
    (htr1 : ∀ p l, env1.transcribe_result p l = Except.ok (res p l))
    (hperm : order.Perm (List.range chunks.length))
    (hsave1 : env1.save_result (transcription_file_path name) = Except.error e1)
    (hne : combined_text_of (chunk_results res chunks name fmt lang) ≠ "")
    (hexp2 : ∀ p, env2.export_result p = Except.ok ())
    (htr2 : ∀ p l, env2.transcribe_result p l = Except.ok (res p l))
    (hsave2t : env2.save_result (transcription_file_path name) = Except.ok ())
    (hsave2s : env2.save_result (segments_file_path name) = Except.error e2)
    (hseg : all_segments (chunk_results res chunks name fmt lang) ≠ []) :
    run_transcription_from_chunks env1 tz chunks order name fmt lang = ⟨[], some e1⟩
    ∧ run_transcription_from_chunks env2 tz chunks order name fmt lang
      = ⟨[(transcription_file_path name,
            combined_text_of (chunk_results res chunks name fmt lang))], some e2⟩ := by
  constructor
  · rw [run_from_chunks_ok env1 res tz chunks order name fmt lang hexp1 htr1 hperm,
      write_outputs, if_pos hne, hsave1]
  · rw [run_from_chunks_ok env2 res tz chunks order name fmt lang hexp2 htr2 hperm,
      write_outputs, if_pos hne, hsave2t, write_segments_step, if_pos hseg, hsave2s]

/-- Witness for output_writes_sequential at the concrete environments
env_wfail (transcript write fails) and env_sfail (segments write fails). -/
theorem output_writes_sequential_witness :
    run_transcription_from_chunks env_wfail 0 ([[0]] : List (List Nat)) [0] "audio" "mp3" "en"
      = ⟨[], some "disk full"⟩
    ∧ run_transcription_from_chunks env_sfail 0 ([[0]] : List (List Nat)) [0] "audio" "mp3" "en"
      = ⟨[(transcription_file_path "audio",
            combined_text_of (chunk_results res_hello ([[0]] : List (List Nat)) "audio" "mp3" "en"))],
          some "quota exceeded"⟩ :=
  output_writes_sequential env_wfail env_sfail res_hello 0 [[0]] [0] "audio" "mp3" "en"
    "disk full" "quota exceeded" (fun _ => rfl) (fun _ _ => rfl) (by decide)
    (by decide) (by decide) (fun _ => rfl) (fun _ _ => rfl) (by decide) (by decide) (by decide)

/-- C8: a present language argument whose stripped value is not exactly two
characters makes parse_arguments fail, and main then performs no work at
all: its outcome does not depend on the pipeline.  An absent language
argument parses to the default language en. -/
theorem invalid_language_rejected (argv : List String) :
    (3 ≤ argv.length → (python_strip (argv.getD 2 "")).length ≠ 2 →
      (∃ e, parse_arguments argv = Except.error e)
      ∧ ∀ run1 run2 : String → String → RunOutcome,
          main_run argv run1 = main_run argv run2)
    ∧ (argv.length = 2 → parse_arguments argv = Except.ok (argv.getD 1 "", "en")) := by
  constructor
  · intro h3 hlen
    have hcond : ¬(py_lower (python_strip (argv.getD 2 "")) ≠ ""
        ∧ (py_lower (python_strip (argv.getD 2 ""))).length = 2) := by
      rintro ⟨-, h2⟩
      rw [py_lower_length] at h2
      exact hlen h2
    have hparse : parse_arguments argv
        = Except.error ("Invalid language code " ++ py_lower (python_strip (argv.getD 2 ""))
            ++ ". Should be an ISO 3166-1 alpha-2 code.") := by
      simp only [parse_arguments, if_neg (show ¬argv.length < 2 by omega), if_pos h3,
        if_neg hcond]
    refine ⟨⟨_, hparse⟩, ?_⟩
    intro run1 run2
    simp only [main_run, hparse]
  · intro h2
    simp only [parse_arguments, if_neg (show ¬argv.length < 2 by omega),
      if_neg (show ¬(3 ≤ argv.length) by omega)]

/-- Witness for invalid_language_rejected: the argument english is rejected
with main performing no work, and a missing language argument parses to
en. -/
theorem invalid_language_rejected_witness :
    (∃ e, parse_arguments ["whisper.py", "a.mp3", "english"] = Except.error e)
    ∧ main_run ["whisper.py", "a.mp3", "english"] (fun _ _ => ⟨[], none⟩)
        = main_run ["whisper.py", "a.mp3", "english"] (fun _ _ => ⟨[("x", "y")], none⟩)
    ∧ parse_arguments ["whisper.py", "a.mp3"] = Except.ok ("a.mp3", "en") :=
  ⟨((invalid_language_rejected ["whisper.py", "a.mp3", "english"]).1
      (by decide) (by decide)).1,
    ((invalid_language_rejected ["whisper.py", "a.mp3", "english"]).1
      (by decide) (by decide)).2 _ _,
    (invalid_language_rejected ["whisper.py", "a.mp3"]).2 (by decide)⟩

/-- C9 counterexample: a transcription failure propagates as the service
error itself, identical for chunk ordinals 2 and 5, so the propagated
error cannot carry the failing chunk's ordinal index. -/
theorem error_lacks_ordinal_cex :
    process_chunk env_tfail ([] : List Nat) "mp3" 2 "audio" "en"
        = process_chunk env_tfail ([] : List Nat) "mp3" 5 "audio" "en"
    ∧ process_chunk env_tfail ([] : List Nat) "mp3" 2 "audio" "en"
        = Except.error "APIConnectionError" :=
  ⟨rfl, rfl⟩

/-- C9 amended: a transcription failure for a chunk propagates out of
process_chunk unchanged, as the remote service's error; the chunk ordinal
is not attached to it (it enters only the chunk file name and the log
line printed before processing). -/
theorem transcription_error_propagates_unchanged (env : Env) (chunk : List Nat)
    (fmt : String) (i : Nat) (name lang : String) (e : String)
    (hexp : env.export_result (chunk_file_path name i fmt) = Except.ok ())
    (htr : env.transcribe_result (chunk_file_path name i fmt) lang = Except.error e) :
    process_chunk env chunk fmt i name lang = Except.error e := by
  simp only [process_chunk, hexp, htr]

/-- Witness for transcription_error_propagates_unchanged at ordinal 3 under
env_tfail. -/
theorem transcription_error_propagates_unchanged_witness :
    process_chunk env_tfail ([0] : List Nat) "mp3" 3 "audio" "en"
      = Except.error "APIConnectionError" :=
  transcription_error_propagates_unchanged env_tfail [0] "mp3" 3 "audio" "en"
    "APIConnectionError" rfl rfl

/-- C10: a present language argument whose stripped value has exactly two
characters is accepted, whatever the two characters are, and the parsed
language code is its lowercased form. -/
theorem valid_language_lowercased (argv : List String)
    (h3 : 3 ≤ argv.length)
    (hlen : (python_strip (argv.getD 2 "")).length = 2) :
    parse_arguments argv
      = Except.ok (argv.getD 1 "", py_lower (python_strip (argv.getD 2 ""))) := by
  have hl2 : (py_lower (python_strip (argv.getD 2 ""))).length = 2 := by
    rw [py_lower_length]
    exact hlen
  have hne : py_lower (python_strip (argv.getD 2 "")) ≠ "" := by
    intro hempty
    rw [hempty] at hl2
    simp at hl2
  simp only [parse_arguments, if_neg (show ¬argv.length < 2 by omega), if_pos h3,
    if_pos (And.intro hne hl2)]

/-- Witness for valid_language_lowercased: the argument EN (with spaces to
strip) is accepted and lowercased to en, and the non-letter argument 12 is
accepted unchanged. -/
theorem valid_language_lowercased_witness :
    (python_strip (([" EN "] : List String).getD 0 "")).length = 2
    ∧ parse_arguments ["whisper.py", "a.mp3", " EN "] = Except.ok ("a.mp3", "en")
    ∧ parse_arguments ["whisper.py", "a.mp3", "12"] = Except.ok ("a.mp3", "12") := by
  refine ⟨by decide, ?_, ?_⟩
  · rw [valid_language_lowercased ["whisper.py", "a.mp3", " EN "] (by decide) (by decide)]
    decide
  · rw [valid_language_lowercased ["whisper.py", "a.mp3", "12"] (by decide) (by decide)]
    decide

end Whisper
